import Mathlib

/-!
Shallow embedding of the media-port core of `sanyaade-teachings/sip4livekit`
(`pkg/sip/media_port.go`): the `udpConn` wrapper, `MediaPort` lifecycle
(`SetConfig`, `Close`, `WriteAudioTo`, `WriteDTMF`), the RTP accept loop
(`rtpLoop`, both the current and the older version present in the file), the
packet read loop (`rtpReadLoop`) and the media-timeout watchdog
(`timeoutLoop` / `EnableTimeout`).

Modelling conventions:
- machine integers become `Nat` (none of the verified paths overflow);
- atomics and the coarse mutex are sequentialized: each public operation is a
  pure state transformer on `PortState`;
- external collaborators (the UDP socket, the SRTP factory, codec pipelines,
  `dtmf.Write`) are abstracted by parameters or by opaque `Nat` identifiers
  minted from a `fresh` argument;
- Go `panic` (nil-pointer dereference) is modelled by an `Option` result
  being `none`;
- log statements do not change state and are modelled only where a claim is
  about logging (`rtpReadLoop`'s oversize log counter).
-/

namespace MediaPortGo

/-- Model of `netip.AddrPort`: a host/port pair plus the `IsValid` flag. -/
structure AddrPort where
  valid : Bool
  host : Nat
  port : Nat
deriving DecidableEq

/-- Model of `udpConn.SetDst` (media_port.go:506-515): the new address is
stored only when it is valid; the surrounding log lines do not change state. -/
def setDst (dst : Option AddrPort) (addr : AddrPort) : Option AddrPort :=
  if addr.valid then some addr else dst

/-- A datagram handed to the underlying socket by `WriteToUDPAddrPort`. -/
structure Datagram where
  dest : AddrPort
  payload : List Nat
deriving DecidableEq

/-- Result of `udpConn.Write`: the reported byte count, the reported error,
and the datagrams actually passed to the socket. -/
structure WriteOut where
  n : Nat
  err : Option Nat
  sent : List Datagram
deriving DecidableEq

/-- Model of `udpConn.Write` (media_port.go:528-534). `sock` abstracts the
underlying `WriteToUDPAddrPort` (its return value is external behaviour):
with no destination stored the write reports `len(b)` and no error without
calling the socket; otherwise the single datagram goes to the stored
destination. -/
def udpWrite (dst : Option AddrPort) (b : List Nat)
    (sock : List Nat → AddrPort → Nat × Option Nat) : WriteOut :=
  match dst with
  | none => ⟨b.length, none, []⟩
  | some d => ⟨(sock b d).1, (sock b d).2, [⟨d, b⟩]⟩

/-- Model of `MediaConf` (media_port.go:536-539 plus the used parts of
`sdp.MediaConfig`): remote address, whether `Crypto` is non-nil, the audio and
DTMF payload types, and whether a PCM `Processor` is present. -/
structure MediaConf where
  remote : AddrPort
  hasCrypto : Bool
  audioType : Nat
  dtmfType : Nat
  hasProcessor : Bool
deriving DecidableEq

/-- Error kinds surfaced by the modelled operations (spec section 7). -/
inductive MediaErr
  | alreadyClosed
  | configRejected
  | ioFailure
deriving DecidableEq

/-- The mutable fields of `MediaPort` (media_port.go:595-624) that the
verified claims touch. Sessions, streams, writers and handlers are opaque
`Nat` identifiers; `closedSessions` / `closedWriters` record which of them
have received a `Close` call. -/
structure PortState where
  closed : Bool := false
  dst : Option AddrPort := none
  conf : Option MediaConf := none
  sess : Option Nat := none
  hnd : Option Nat := none
  audioOutRTP : Option Nat := none
  dtmfOutRTP : Option Nat := none
  dtmfOutAudio : Option Nat := none
  audioOut : Option Nat := none
  audioIn : Option Nat := none
  dtmfAudioEnabled : Bool := false
  closedSessions : List Nat := []
  closedWriters : List Nat := []
deriving DecidableEq

/-- Model of `MediaPort.SetConfig` (media_port.go:799-838) together with the
locked `setupOutput` (922-955) and `setupInput` (957-993) it calls.
`srtpFails` is the external behaviour of `srtp.NewSession` (only consulted
when `c.hasCrypto`); `openWriteFails` is the external behaviour of
`OpenWriteStream`; `fresh` mints identifiers for the new session, streams,
pipeline writer and handler. Mirrored control flow: the closed check, the
first `SetDst` (before session construction), the session-construction error
return, the second `SetDst` plus `conf`/`sess` stores under the lock, the
repeated closed check inside `setupOutput`, stream creation, the
`audioOut.Swap` that closes the displaced writer, and the handler store. -/
def SetConfig (st : PortState) (c : MediaConf) (srtpFails openWriteFails : Bool)
    (fresh : Nat) : Except MediaErr Unit × PortState :=
  if st.closed then (.error .alreadyClosed, st)
  else
    let st1 : PortState := { st with dst := setDst st.dst c.remote }
    if c.hasCrypto && srtpFails then (.error .configRejected, st1)
    else
      let st2 : PortState :=
        { st1 with dst := setDst st1.dst c.remote, conf := some c, sess := some fresh }
      if st2.closed then (.error .alreadyClosed, st2)
      else if openWriteFails then (.error .ioFailure, st2)
      else
        let st3 : PortState := { st2 with audioOutRTP := some (fresh + 1) }
        let st4 : PortState :=
          if c.dtmfType ≠ 0 then
            let a : PortState := { st3 with dtmfOutRTP := some (fresh + 2) }
            if a.dtmfAudioEnabled then { a with dtmfOutAudio := some (fresh + 3) } else a
          else st3
        let cw := st4.audioOut.elim st4.closedWriters (fun w => w :: st4.closedWriters)
        let st5 : PortState := { st4 with audioOut := some (fresh + 4), closedWriters := cw }
        (.ok (), { st5 with hnd := some (fresh + 5) })

/-- Model of `MediaPort.Close` (media_port.go:705-733): one-shot via
`closed.Once`; swaps out and closes both switch writers, clears the stream
fields, closes `dtmfOutAudio`, clears the DTMF callback, closes the session
and the UDP port, and calls `Close` on the current handler. The `conf`,
`sess` and `hnd` pointers themselves are not cleared by the Go code. -/
def closePort (st : PortState) : PortState :=
  if st.closed then st
  else
    let cw1 := st.audioOut.elim st.closedWriters (fun w => w :: st.closedWriters)
    let cw2 := st.audioIn.elim cw1 (fun w => w :: cw1)
    let cw3 := st.dtmfOutAudio.elim cw2 (fun w => w :: cw2)
    let cs := st.sess.elim st.closedSessions (fun s => s :: st.closedSessions)
    { st with
      closed := true
      audioOut := none
      audioIn := none
      audioOutRTP := none
      dtmfOutRTP := none
      dtmfOutAudio := none
      closedSessions := cs
      closedWriters := cw3 }

/-- Model of `MediaPort.WriteAudioTo` (media_port.go:753-761). The Go code
reads `p.conf.Processor` unconditionally; when `p.conf` is nil this is a
nil-pointer dereference (panic), modelled as `none`. Otherwise the writer
(wrapped by the processor when present, `procWrap` abstracting the wrapping)
is swapped into `audioIn` and the displaced writer is closed. -/
def WriteAudioTo (st : PortState) (w : Nat) (procWrap : Nat → Nat) :
    Option PortState :=
  match st.conf with
  | none => none
  | some c =>
    let w2 := if c.hasProcessor then procWrap w else w
    let cw := st.audioIn.elim st.closedWriters (fun pw => pw :: st.closedWriters)
    some { st with audioIn := some w2, closedWriters := cw }

/-- The argument record of a call to the external `dtmf.Write`
(media_port.go:1030). -/
structure DtmfCall where
  audioOut : Option Nat
  rtpOut : Option Nat
  rtpTs : Nat
  digits : List Char
deriving DecidableEq

/-- Model of `MediaPort.WriteDTMF` (media_port.go:1009-1031). Returns the
call made to the external `dtmf.Write`, or `none` when the function returns
nil without any output (empty digit string, or neither a DTMF RTP stream nor
an enabled DTMF audio writer present). `tsOfStream` abstracts
`GetCurrentTimestamp` of the audio RTP stream. -/
def WriteDTMF (st : PortState) (digits : List Char) (tsOfStream : Nat → Nat) :
    Option DtmfCall :=
  if digits.length = 0 then none
  else
    let dtmfOut := st.dtmfOutRTP
    let audioOut := if st.dtmfAudioEnabled then st.dtmfOutAudio else none
    if dtmfOut.isNone && audioOut.isNone then none
    else some ⟨audioOut, dtmfOut, st.audioOutRTP.elim 0 tsOfStream, digits⟩

/-- One result of `sess.AcceptStream()` observed by the accept loop: either
an error (modelling `net.ErrClosed` or any other failure, both of which make
the loop return) or a newly accepted stream with its SSRC. -/
inductive AcceptEv
  | err
  | ok (ssrc : Nat)
deriving DecidableEq

/-- Model of the current `MediaPort.rtpLoop` (media_port.go:840-856): for the
given sequence of `AcceptStream` results, the list of SSRCs for which a
`rtpReadLoop` goroutine is spawned, in order. Every accepted stream is
counted, logged (`accepting RTP stream`) and spawned; the loop exits on the
first `AcceptStream` error. -/
def rtpLoopSpawns : List AcceptEv → List Nat
  | [] => []
  | .err :: _ => []
  | .ok ssrc :: rest => ssrc :: rtpLoopSpawns rest

/-- Model of the older `MediaPort.rtpLoop` also present in the file
(media_port.go:275-295): a read loop is spawned only while `first` is true
(once, for the first accepted SSRC); later accepted streams are logged as
`ignoring media` and not spawned. -/
def rtpLoopSpawnsOld : Bool → List AcceptEv → List Nat
  | _, [] => []
  | _, .err :: _ => []
  | first, .ok ssrc :: rest =>
    if first then ssrc :: rtpLoopSpawnsOld false rest
    else rtpLoopSpawnsOld false rest

/-- Whether an `AcceptStream` result is a successful accept. -/
def AcceptEv.isOk : AcceptEv → Bool
  | .err => false
  | .ok _ => true

/-- The SSRC of a successful accept. -/
def AcceptEv.ssrcOf : AcceptEv → Option Nat
  | .err => none
  | .ok s => some s

/-- The SSRCs accepted before the first `AcceptStream` error, in order
(the streams the session hands out during one run of the accept loop). -/
def acceptedSsrcs (evs : List AcceptEv) : List Nat :=
  (evs.takeWhile AcceptEv.isOk).filterMap AcceptEv.ssrcOf

/-- `rtp.MTUSize` (media-sdk), the 1500-byte MTU bound checked by the read
loop; the read buffer is `MTUSize+1` bytes. -/
def MTUSize : Nat := 1500

/-- `maxErrors` (media_port.go:859): consecutive handler errors tolerated by
the read loop before it kills the stream. -/
def maxErrors : Nat := 50

/-- One result of `r.ReadRTP` in the read loop: end of stream, a read error,
or a packet of `n` bytes; `hndSome` is whether the atomic handler pointer
(and its pointee) is non-nil at that moment, `hok` whether `HandleRTP`
returns nil for this packet. -/
inductive ReadEv
  | eof
  | readErr
  | pkt (n : Nat) (hndSome : Bool) (hok : Bool)
deriving DecidableEq

/-- The counters the read loop updates: `stats.Packets`,
`stats.IgnoredPackets`, `stats.InputPackets` (packets dispatched to the
handler), and the number of `RTP packet is larger than MTU limit` log
entries emitted. -/
structure RLStats where
  packets : Nat := 0
  ignored : Nat := 0
  input : Nat := 0
  oversizeLogs : Nat := 0
deriving DecidableEq

/-- How one run of the read loop ended: `streamEnd` means the supplied event
list was exhausted with the loop still alive. -/
inductive RLExit
  | eof
  | readErr
  | killed
  | streamEnd
deriving DecidableEq

/-- The read loop's local state: the `overflow` flag, the consecutive-error
counter `errorCnt`, and the counters. -/
structure RLState where
  overflow : Bool := false
  errorCnt : Nat := 0
  stats : RLStats := {}
deriving DecidableEq

/-- Model of `MediaPort.rtpReadLoop` (media_port.go:858-920). Faithful
control flow per packet: increment the packet counters; if `n > MTUSize` set
`overflow := true` and then log only `if !overflow` (the flag is set
immediately before the check, exactly as in the source), count ignored and
continue; if the handler pointer is nil count ignored and continue;
otherwise count the packet as input and dispatch: on handler error increment
`errorCnt` and exit `killed` once `errorCnt ≥ maxErrors`, on success reset
`errorCnt` to zero. -/
def rtpReadLoop : RLState → List ReadEv → RLExit × RLState
  | s, [] => (.streamEnd, s)
  | s, .eof :: _ => (.eof, s)
  | s, .readErr :: _ => (.readErr, s)
  | s, .pkt n hndSome hok :: rest =>
    let s0 : RLState := { s with stats := { s.stats with packets := s.stats.packets + 1 } }
    if MTUSize < n then
      let s1 : RLState := { s0 with overflow := true }
      let s2 : RLState :=
        if s1.overflow = false then
          { s1 with stats := { s1.stats with oversizeLogs := s1.stats.oversizeLogs + 1 } }
        else s1
      rtpReadLoop
        { s2 with stats := { s2.stats with ignored := s2.stats.ignored + 1 } } rest
    else if hndSome = false then
      rtpReadLoop
        { s0 with stats := { s0.stats with ignored := s0.stats.ignored + 1 } } rest
    else
      let s3 : RLState := { s0 with stats := { s0.stats with input := s0.stats.input + 1 } }
      if hok then rtpReadLoop { s3 with errorCnt := 0 } rest
      else
        let s4 : RLState := { s3 with errorCnt := s3.errorCnt + 1 }
        if maxErrors ≤ s4.errorCnt then (.killed, s4)
        else rtpReadLoop s4 rest

/-- The two durations of the watchdog (`MediaOptions.MediaTimeoutInitial`
and `MediaOptions.MediaTimeout`), in abstract time units. -/
structure TOpts where
  tinit : Nat
  tsteady : Nat
deriving DecidableEq

/-- One event delivered to the watchdog's `select` (media_port.go:660-668),
tagged with the time at which it is handled: port close, `EnableTimeout(true)`
(which both performs the reset-channel send and stores `timeoutStart := now`;
the two are merged since the loop is the only reader), `EnableTimeout(false)`
(which only clears `timeoutStart`), or a ticker tick. -/
inductive TEv
  | close (t : Nat)
  | enable (t : Nat)
  | disable (t : Nat)
  | tick (t : Nat)
deriving DecidableEq

/-- Time of a watchdog event. -/
def TEv.time : TEv → Nat
  | .close t => t
  | .enable t => t
  | .disable t => t
  | .tick t => t

/-- The watchdog's local state (media_port.go:655-659) plus the
`timeoutStart` atomic it samples: `lastPackets`, `startPackets`, `lastTime`,
and `tstart` (the stored enable time, `none` when disabled). -/
structure TState where
  lastPackets : Nat
  startPackets : Nat
  lastTime : Nat
  tstart : Option Nat
deriving DecidableEq

/-- Initial watchdog state: zero counters, zero time, timeout disabled. -/
def TState.init : TState := ⟨0, 0, 0, none⟩

/-- Outcome of one `select` iteration of `timeoutLoop`: exit without firing
(close), fire the timeout at time `t` and exit, or continue with a new
state. -/
inductive TStep
  | exit
  | fire (t : Nat)
  | cont (s : TState)
deriving DecidableEq

/-- Model of one iteration of `MediaPort.timeoutLoop` (media_port.go:650-703)
— with `EnableTimeout` (634-648) folded into the `enable`/`disable` events.
`pc t` is the value of the `packetCount` atomic at time `t`. The tick branch
mirrors the source: on a counter change record it and continue; when
disabled continue; during the initial grace (no packet observed since enable
and `sinceStart < tinit`) continue; when the tick fired early
(`sinceLast < tsteady`) continue; otherwise fire. -/
def tstep (opts : TOpts) (pc : Nat → Nat) (s : TState) : TEv → TStep
  | .close _ => .exit
  | .enable t => .cont { s with startPackets := pc t, lastTime := t, tstart := some t }
  | .disable _ => .cont { s with tstart := none }
  | .tick t =>
    if pc t ≠ s.lastPackets then .cont { s with lastPackets := pc t, lastTime := t }
    else
      match s.tstart with
      | none => .cont s
      | some ts =>
        if s.lastPackets = s.startPackets ∧ t - ts < opts.tinit then .cont s
        else if t - s.lastTime < opts.tsteady then .cont s
        else .fire t

/-- Model of a full run of `timeoutLoop` over a list of events: returns the
time at which the one-shot timeout fired (if it did) and the events left
unprocessed when the loop returned (the Go loop calls `timeoutCallback` and
returns immediately, so everything after the firing tick is untouched). -/
def trun (opts : TOpts) (pc : Nat → Nat) : TState → List TEv → Option Nat × List TEv
  | _, [] => (none, [])
  | s, e :: es =>
    match tstep opts pc s e with
    | .exit => (none, es)
    | .fire t => (some t, es)
    | .cont s2 => trun opts pc s2 es

/-- Event times along a trace are nondecreasing and bounded below by `t0`
(the watchdog handles events in temporal order). -/
def TimesMono : Nat → List TEv → Prop
  | _, [] => True
  | t0, e :: es => t0 ≤ e.time ∧ TimesMono e.time es

/-- Invariant tying the watchdog state at (lower-bound) time `t0` to the
packet-counter history: `lastTime` is in the past, `lastPackets` is at most
the counter value at `lastTime`, and when enabled the enable time is at most
`lastTime` with `startPackets` equal to the counter sampled at enable. -/
structure TInv (pc : Nat → Nat) (t0 : Nat) (s : TState) : Prop where
  lastTime_le : s.lastTime ≤ t0
  lastPackets_le : s.lastPackets ≤ pc s.lastTime
  tstart_le : ∀ ts, s.tstart = some ts → ts ≤ s.lastTime
  tstart_pc : ∀ ts, s.tstart = some ts → s.startPackets = pc ts

/-- C6: for every buffer `b`, a write on the UDP channel while the
destination slot is unset returns success reporting the full length of `b`
and sends nothing to the socket; once the destination is set, the write
sends the datagram to that destination. -/
theorem c6_udp_write_dst_gate (b : List Nat)
    (sock : List Nat → AddrPort → Nat × Option Nat) :
    udpWrite none b sock = ⟨b.length, none, []⟩ ∧
    ∀ d : AddrPort, (udpWrite (some d) b sock).sent = [⟨d, b⟩] :=
  ⟨rfl, fun _ => rfl⟩

/-- C10: calling `WriteAudioTo` before any successful `SetConfig` (with the
stored configuration still nil) dereferences the nil `p.conf` when reading
`p.conf.Processor` and panics; the panic is modelled by the `none` result. -/
theorem c10_write_audio_to_nil_conf (st : PortState) (w : Nat)
    (procWrap : Nat → Nat) (h : st.conf = none) :
    WriteAudioTo st w procWrap = none := by
  simp [WriteAudioTo, h]

/-- Witness for C10: the freshly constructed port (no `SetConfig` yet) makes
`WriteAudioTo` panic. -/
theorem c10_write_audio_to_nil_conf_witness :
    WriteAudioTo {} 5 id = none :=
  c10_write_audio_to_nil_conf {} 5 id rfl

/-- C9: `WriteDTMF` with neither an outbound DTMF RTP stream nor an enabled
DTMF audio output returns success without calling `dtmf.Write`, and an empty
digit string returns success immediately. -/
theorem c9_write_dtmf_noop (st : PortState) (digits : List Char)
    (tsOf : Nat → Nat) (h1 : st.dtmfOutRTP = none)
    (h2 : st.dtmfAudioEnabled = false ∨ st.dtmfOutAudio = none) :
    WriteDTMF st digits tsOf = none ∧ WriteDTMF st [] tsOf = none := by
  constructor
  · cases digits with
    | nil => rfl
    | cons d ds =>
      rcases h2 with h2 | h2 <;> simp [WriteDTMF, h1, h2]
  · rfl

/-- Witness for C9: a default port state with a nonempty digit string. -/
theorem c9_write_dtmf_noop_witness :
    WriteDTMF {} ['1'] id = none ∧ WriteDTMF {} [] id = none :=
  c9_write_dtmf_noop {} ['1'] id rfl (Or.inl rfl)

/-- C8: `SetConfig` on a closed port fails with the already-closed error for
every configuration and leaves the state untouched; `closePort` always
results in a closed port, and no modelled operation ever clears the closed
flag, so once closed every later `SetConfig` fails. -/
theorem c8_set_config_after_close (st : PortState) (c : MediaConf)
    (sf owf : Bool) (fresh w : Nat) (procWrap : Nat → Nat)
    (h : st.closed = true) :
    SetConfig st c sf owf fresh = (.error .alreadyClosed, st) ∧
    (∀ s2 : PortState, (closePort s2).closed = true) ∧
    (∀ st2 ∈ WriteAudioTo st w procWrap, st2.closed = true) := by
  refine ⟨by simp [SetConfig, h], ?_, ?_⟩
  · intro s2
    by_cases h2 : s2.closed = true <;> simp [closePort, h2]
  · intro st2 hst2
    cases hc : st.conf with
    | none => simp [WriteAudioTo, hc] at hst2
    | some cc =>
      simp only [WriteAudioTo, hc, Option.mem_def, Option.some.injEq] at hst2
      subst hst2
      exact h

/-- Witness for C8: a closed port rejects a concrete `SetConfig`. -/
theorem c8_set_config_after_close_witness :
    SetConfig { closed := true } ⟨⟨true, 1, 2⟩, false, 0, 0, false⟩ false false 0 =
      (.error .alreadyClosed, { closed := true }) ∧
    (∀ s2 : PortState, (closePort s2).closed = true) ∧
    (∀ st2 ∈ WriteAudioTo { closed := true } 5 id, st2.closed = true) :=
  c8_set_config_after_close { closed := true } ⟨⟨true, 1, 2⟩, false, 0, 0, false⟩
    false false 0 5 id rfl

/-- Concrete states for the C1 analysis: a fresh port and an encrypted
configuration whose SRTP construction fails. -/
def c1State : PortState := {}

/-- The valid remote address used in the C1 scenario. -/
def c1Remote : AddrPort := ⟨true, 7, 30000⟩

/-- The C1 configuration: crypto present, DTMF payload type 101. -/
def c1Conf : MediaConf := ⟨c1Remote, true, 0, 101, false⟩

/-- C1 counterexample: when SRTP session construction fails, `SetConfig`
does return an error, but the UDP channel's destination address is NOT
unchanged — `SetDst(c.Remote)` runs before the session is constructed, so
the destination has already moved from unset to the new remote. -/
theorem c1_counterexample :
    (SetConfig c1State c1Conf true false 0).1 = Except.error MediaErr.configRejected ∧
    (SetConfig c1State c1Conf true false 0).2.dst ≠ c1State.dst :=
  ⟨rfl, by decide⟩

/-- C1 amended: if `SetConfig` fails because SRTP session construction
returns an error, the call returns an error and the stored conf, the
session, the handler pointer and the whole output pipeline are unchanged;
the UDP channel's destination, however, has already been updated to the
config's remote address (when valid) before the failure. -/
theorem c1_amended (st : PortState) (c : MediaConf) (fresh : Nat) (owf : Bool)
    (hc : c.hasCrypto = true) (hcl : st.closed = false) :
    (SetConfig st c true owf fresh).1 = Except.error MediaErr.configRejected ∧
    (SetConfig st c true owf fresh).2.conf = st.conf ∧
    (SetConfig st c true owf fresh).2.sess = st.sess ∧
    (SetConfig st c true owf fresh).2.hnd = st.hnd ∧
    (SetConfig st c true owf fresh).2.audioOut = st.audioOut ∧
    (SetConfig st c true owf fresh).2.audioOutRTP = st.audioOutRTP ∧
    (SetConfig st c true owf fresh).2.dtmfOutRTP = st.dtmfOutRTP ∧
    (SetConfig st c true owf fresh).2.closedWriters = st.closedWriters ∧
    (SetConfig st c true owf fresh).2.dst = setDst st.dst c.remote := by
  simp [SetConfig, hc, hcl]

/-- Witness for C1's amended claim at the concrete C1 scenario. -/
theorem c1_amended_witness :
    (SetConfig c1State c1Conf true false 0).1 = Except.error MediaErr.configRejected ∧
    (SetConfig c1State c1Conf true false 0).2.conf = c1State.conf ∧
    (SetConfig c1State c1Conf true false 0).2.sess = c1State.sess ∧
    (SetConfig c1State c1Conf true false 0).2.hnd = c1State.hnd ∧
    (SetConfig c1State c1Conf true false 0).2.audioOut = c1State.audioOut ∧
    (SetConfig c1State c1Conf true false 0).2.audioOutRTP = c1State.audioOutRTP ∧
    (SetConfig c1State c1Conf true false 0).2.dtmfOutRTP = c1State.dtmfOutRTP ∧
    (SetConfig c1State c1Conf true false 0).2.closedWriters = c1State.closedWriters ∧
    (SetConfig c1State c1Conf true false 0).2.dst = setDst c1State.dst c1Conf.remote :=
  c1_amended c1State c1Conf 0 false rfl rfl

/-- Unencrypted configuration used for the C7 scenario. -/
def c7Conf : MediaConf := ⟨⟨true, 8, 40000⟩, false, 0, 0, false⟩

/-- The port after a first successful `SetConfig` (active session id 10). -/
def c7St1 : PortState := (SetConfig {} c7Conf false false 10).2

/-- C7 counterexample: a second successful `SetConfig` replaces the active
session (10 becomes 20) but the prior session receives no `Close` call —
`p.sess` is simply overwritten and `closedSessions` stays empty. -/
theorem c7_counterexample :
    c7St1.sess = some 10 ∧
    (SetConfig c7St1 c7Conf false false 20).1 = Except.ok () ∧
    (SetConfig c7St1 c7Conf false false 20).2.sess = some 20 ∧
    (SetConfig c7St1 c7Conf false false 20).2.closedSessions = [] :=
  ⟨rfl, rfl, rfl, rfl⟩

/-- C7 amended: on a port with an active session, a successful `SetConfig`
replaces the active session with the new one, but the prior session is not
closed by `SetConfig` (the set of sessions that received `Close` is
unchanged; only `closePort` closes the then-current session). -/
theorem c7_amended (st : PortState) (c : MediaConf) (fresh : Nat)
    (hcl : st.closed = false) (hcr : c.hasCrypto = false) :
    (SetConfig st c false false fresh).1 = Except.ok () ∧
    (SetConfig st c false false fresh).2.sess = some fresh ∧
    (SetConfig st c false false fresh).2.closedSessions = st.closedSessions := by
  simp only [SetConfig, hcl, hcr, Bool.false_and, Bool.false_eq_true, if_false,
    Bool.if_false_left]
  split_ifs <;> simp

/-- Witness for C7's amended claim: the second `SetConfig` of the concrete
scenario replaces session 10 with 20 and closes nothing. -/
theorem c7_amended_witness :
    (SetConfig c7St1 c7Conf false false 20).1 = Except.ok () ∧
    (SetConfig c7St1 c7Conf false false 20).2.sess = some 20 ∧
    (SetConfig c7St1 c7Conf false false 20).2.closedSessions = c7St1.closedSessions :=
  c7_amended c7St1 c7Conf 20 rfl rfl

/-- The older accept loop never spawns once `first` is false. -/
theorem rtpLoopSpawnsOld_false (evs : List AcceptEv) :
    rtpLoopSpawnsOld false evs = [] := by
  induction evs with
  | nil => rfl
  | cons e rest ih =>
    cases e with
    | err => rfl
    | ok s => simpa [rtpLoopSpawnsOld] using ih

/-- C2 counterexample: with two accepted SSRCs the current accept loop
spawns a read loop for both of them, not only for the first. -/
theorem c2_counterexample :
    rtpLoopSpawns [AcceptEv.ok 1, AcceptEv.ok 2] = [1, 2] ∧
    rtpLoopSpawns [AcceptEv.ok 1, AcceptEv.ok 2] ≠ [1] :=
  ⟨rfl, by decide⟩

/-- C2 amended: the current accept loop starts a packet read loop for every
accepted SSRC (each accepted stream is logged), so packets of a second SSRC
are dispatched like the first; only the older `rtpLoop` version in the file
restricts the read loop to the first accepted SSRC and merely logs the
rest. -/
theorem c2_amended (evs : List AcceptEv) :
    rtpLoopSpawns evs = acceptedSsrcs evs ∧
    rtpLoopSpawnsOld true evs = (acceptedSsrcs evs).take 1 := by
  constructor
  · induction evs with
    | nil => rfl
    | cons e rest ih =>
      cases e with
      | err => rfl
      | ok s =>
        simp [rtpLoopSpawns, acceptedSsrcs, AcceptEv.isOk, AcceptEv.ssrcOf,
          List.takeWhile_cons, List.filterMap_cons] at ih ⊢
        exact ih
  · cases evs with
    | nil => rfl
    | cons e rest =>
      cases e with
      | err => rfl
      | ok s =>
        simp [rtpLoopSpawnsOld, rtpLoopSpawnsOld_false, acceptedSsrcs,
          AcceptEv.isOk, AcceptEv.ssrcOf, List.takeWhile_cons, List.filterMap_cons]

/-- The read loop can never emit the oversize-packet log: `overflow` is set
to `true` immediately before the `if !overflow` check, so the log branch is
dead code. -/
theorem rtpReadLoop_oversizeLogs (evs : List ReadEv) :
    ∀ s : RLState, (rtpReadLoop s evs).2.stats.oversizeLogs = s.stats.oversizeLogs := by
  induction evs with
  | nil => intro s; rfl
  | cons e rest ih =>
    intro s
    cases e with
    | eof => rfl
    | readErr => rfl
    | pkt n hndSome hok =>
      simp only [rtpReadLoop]
      split
      · exact ih _
      · split
        · exact ih _
        · split
          · exact ih _
          · split
            · rfl
            · exact ih _

/-- C3: every oversize inbound packet is counted as ignored and dropped
(never dispatched to the handler), but the oversize condition is never
logged — not even once per stream: the `overflow` flag is assigned directly
before the `if !overflow` check, so the log statement is unreachable. The
concrete run evaluates the loop on a stream whose first packet is 1501
bytes. -/
theorem c3_oversize_packets (evs : List ReadEv) (s : RLState) :
    (rtpReadLoop s evs).2.stats.oversizeLogs = s.stats.oversizeLogs ∧
    rtpReadLoop {} [ReadEv.pkt 1501 true true] =
      (.streamEnd, ⟨true, 0, ⟨1, 1, 0, 0⟩⟩) :=
  ⟨rtpReadLoop_oversizeLogs evs s, rfl⟩

/-- An in-MTU packet whose handler dispatch fails (a decode error). -/
def errPkt : ReadEv := .pkt 100 true false

/-- The read-loop state after `k` consecutive decode errors: the error
counter and the packet/input counters each advance by `k`. -/
def addErrs (s : RLState) (k : Nat) : RLState :=
  ⟨s.overflow, s.errorCnt + k,
    ⟨s.stats.packets + k, s.stats.ignored, s.stats.input + k, s.stats.oversizeLogs⟩⟩

/-- Adding zero errors changes nothing. -/
theorem addErrs_zero (s : RLState) : addErrs s 0 = s := rfl

/-- Processing `k` consecutive decode errors below the `maxErrors` bound
leaves the loop running with the counters advanced by `k`. -/
theorem rtpReadLoop_errRun (k : Nat) :
    ∀ (s : RLState) (rest : List ReadEv), s.errorCnt + k < maxErrors →
    rtpReadLoop s (List.replicate k errPkt ++ rest) = rtpReadLoop (addErrs s k) rest := by
  induction k with
  | zero => intro s rest _; rw [addErrs_zero]; rfl
  | succ k ih =>
    intro s rest hk
    rw [List.replicate_succ, List.cons_append]
    have hk2 : s.errorCnt + (k + 1) < 50 := hk
    have hstep : rtpReadLoop s (errPkt :: (List.replicate k errPkt ++ rest)) =
        rtpReadLoop (addErrs s 1) (List.replicate k errPkt ++ rest) := by
      simp only [errPkt, rtpReadLoop, MTUSize, maxErrors]
      norm_num
      split
      · exfalso; omega
      · rfl
    rw [hstep, ih (addErrs s 1) rest (by simp [addErrs] at hk ⊢; omega)]
    congr 1
    simp [addErrs]
    omega

/-- From a zero error counter, exactly `maxErrors` consecutive decode errors
kill the read loop. -/
theorem rtpReadLoop_kill (s : RLState) (rest : List ReadEv)
    (h0 : s.errorCnt = 0) :
    (rtpReadLoop s (List.replicate maxErrors errPkt ++ rest)).1 = RLExit.killed := by
  have h50 : List.replicate maxErrors errPkt = List.replicate 49 errPkt ++ [errPkt] := by
    rw [← List.replicate_succ']
    rfl
  rw [h50, List.append_assoc,
    rtpReadLoop_errRun 49 s ([errPkt] ++ rest) (by simp only [maxErrors]; omega)]
  simp [List.singleton_append, errPkt, rtpReadLoop, MTUSize, maxErrors, addErrs, h0]

/-- C5: decode errors are counted per consecutive run — starting from a zero
error counter, `maxErrors = 50` consecutive handler errors make the read
loop exit `killed`; any single successful dispatch resets the
consecutive-error counter to zero (whatever its value was); and fewer than
50 consecutive errors never terminate the loop (it is still running, with
the counter equal to the number of errors seen). -/
theorem c5_consecutive_decode_errors (s s2 : RLState) (rest : List ReadEv)
    (n k : Nat) (h0 : s.errorCnt = 0) (hn : n ≤ MTUSize) (hk : k < maxErrors) :
    (rtpReadLoop s (List.replicate maxErrors errPkt ++ rest)).1 = RLExit.killed ∧
    rtpReadLoop s2 (ReadEv.pkt n true true :: rest) =
      rtpReadLoop
        ⟨s2.overflow, 0, ⟨s2.stats.packets + 1, s2.stats.ignored,
          s2.stats.input + 1, s2.stats.oversizeLogs⟩⟩ rest ∧
    (rtpReadLoop s (List.replicate k errPkt)).1 = RLExit.streamEnd ∧
    (rtpReadLoop s (List.replicate k errPkt)).2.errorCnt = k := by
  refine ⟨rtpReadLoop_kill s rest h0, ?_, ?_, ?_⟩
  · simp only [rtpReadLoop, MTUSize] at hn ⊢
    rw [if_neg (by omega)]
    rfl
  · have := rtpReadLoop_errRun k s [] (by omega)
    rw [List.append_nil] at this
    rw [this]
    rfl
  · have := rtpReadLoop_errRun k s [] (by omega)
    rw [List.append_nil] at this
    rw [this]
    simp [rtpReadLoop, addErrs, h0]

/-- Witness for C5 with a concrete state, packet size and error-run
length. -/
theorem c5_consecutive_decode_errors_witness :
    (rtpReadLoop {} (List.replicate maxErrors errPkt ++ [])).1 = RLExit.killed ∧
    rtpReadLoop {} (ReadEv.pkt 100 true true :: []) =
      rtpReadLoop
        ⟨RLState.overflow {}, 0, ⟨RLStats.packets (RLState.stats {}) + 1,
          RLStats.ignored (RLState.stats {}), RLStats.input (RLState.stats {}) + 1,
          RLStats.oversizeLogs (RLState.stats {})⟩⟩ [] ∧
    (rtpReadLoop {} (List.replicate 10 errPkt)).1 = RLExit.streamEnd ∧
    (rtpReadLoop {} (List.replicate 10 errPkt)).2.errorCnt = 10 :=
  c5_consecutive_decode_errors {} {} [] 100 10 rfl (by decide) (by decide)

/-- A step result of `.fire` can only come from a tick event at the same
time. -/
theorem tstep_fire_tick (opts : TOpts) (pc : Nat → Nat) (s : TState) (e : TEv)
    (tf : Nat) (h : tstep opts pc s e = .fire tf) : e = .tick tf := by
  cases e with
  | close t => simp only [tstep] at h; exact TStep.noConfusion h
  | enable t => simp only [tstep] at h; exact TStep.noConfusion h
  | disable t => simp only [tstep] at h; exact TStep.noConfusion h
  | tick t =>
    by_cases hN : pc t ≠ s.lastPackets
    · simp only [tstep, if_pos hN] at h
      exact TStep.noConfusion h
    · cases hts : s.tstart with
      | none =>
        simp only [tstep, if_neg hN, hts] at h
        exact TStep.noConfusion h
      | some ts =>
        by_cases hG : s.lastPackets = s.startPackets ∧ t - ts < opts.tinit
        · simp only [tstep, if_neg hN, hts, if_pos hG] at h
          exact TStep.noConfusion h
        · by_cases hE : t - s.lastTime < opts.tsteady
          · simp only [tstep, if_neg hN, hts, if_neg hG, if_pos hE] at h
            exact TStep.noConfusion h
          · simp only [tstep, if_neg hN, hts, if_neg hG, if_neg hE] at h
            injection h with h2
            rw [h2]

/-- The watchdog invariant only weakens as the time lower bound grows. -/
theorem TInv_weaken (pc : Nat → Nat) (t0 t1 : Nat) (s : TState) (h : t0 ≤ t1)
    (inv : TInv pc t0 s) : TInv pc t1 s :=
  ⟨le_trans inv.lastTime_le h, inv.lastPackets_le, inv.tstart_le, inv.tstart_pc⟩

/-- One continuing step of the watchdog preserves the invariant (for a
monotone packet counter and an event not in the past). -/
theorem TInv_cont (opts : TOpts) (pc : Nat → Nat) (t0 : Nat) (s s2 : TState)
    (e : TEv) (hmono : Monotone pc) (inv : TInv pc t0 s) (ht : t0 ≤ e.time)
    (h : tstep opts pc s e = .cont s2) : TInv pc e.time s2 := by
  cases e with
  | close t => simp only [tstep] at h; exact TStep.noConfusion h
  | enable t =>
    simp only [tstep] at h
    injection h with h2
    subst h2
    refine ⟨le_refl t, ?_, ?_, ?_⟩
    · exact le_trans inv.lastPackets_le (hmono (le_trans inv.lastTime_le ht))
    · intro ts hts
      injection hts with hts2
      exact le_of_eq hts2.symm
    · intro ts hts
      injection hts with hts2
      exact congrArg pc hts2
  | disable t =>
    simp only [tstep] at h
    injection h with h2
    subst h2
    refine ⟨le_trans inv.lastTime_le ht, inv.lastPackets_le, ?_, ?_⟩
    · intro ts hts; exact Option.noConfusion hts
    · intro ts hts; exact Option.noConfusion hts
  | tick t =>
    by_cases hN : pc t ≠ s.lastPackets
    · simp only [tstep, if_pos hN] at h
      injection h with h2
      subst h2
      refine ⟨le_refl t, le_refl (pc t), ?_, ?_⟩
      · intro ts hts
        exact le_trans (inv.tstart_le ts hts) (le_trans inv.lastTime_le ht)
      · exact inv.tstart_pc
    · cases hts : s.tstart with
      | none =>
        simp only [tstep, if_neg hN, hts] at h
        injection h with h2
        subst h2
        exact TInv_weaken pc t0 t s ht inv
      | some ts =>
        by_cases hG : s.lastPackets = s.startPackets ∧ t - ts < opts.tinit
        · simp only [tstep, if_neg hN, hts, if_pos hG] at h
          injection h with h2
          subst h2
          exact TInv_weaken pc t0 t s ht inv
        · by_cases hE : t - s.lastTime < opts.tsteady
          · simp only [tstep, if_neg hN, hts, if_neg hG, if_pos hE] at h
            injection h with h2
            subst h2
            exact TInv_weaken pc t0 t s ht inv
          · simp only [tstep, if_neg hN, hts, if_neg hG, if_neg hE] at h
            exact TStep.noConfusion h

/-- If a run of the watchdog fires at time `t`, the events after the firing
tick are exactly the unprocessed remainder: the loop exits right after
invoking the callback, so the signal fires at most once. -/
theorem trun_fire_exits (opts : TOpts) (pc : Nat → Nat) :
    ∀ (es : List TEv) (s : TState) (t : Nat) (rest : List TEv),
    trun opts pc s es = (some t, rest) →
    ∃ pre, es = pre ++ TEv.tick t :: rest := by
  intro es
  induction es with
  | nil =>
    intro s t rest h
    simp only [trun] at h
    exact Option.noConfusion (congrArg Prod.fst h)
  | cons e es ih =>
    intro s t rest h
    cases hstep : tstep opts pc s e with
    | exit =>
      simp only [trun, hstep] at h
      exact Option.noConfusion (congrArg Prod.fst h)
    | fire tf =>
      simp only [trun, hstep, Prod.mk.injEq, Option.some.injEq] at h
      obtain ⟨h1, h2⟩ := h
      subst h2
      refine ⟨[], ?_⟩
      rw [tstep_fire_tick opts pc s e tf hstep, h1]
      rfl
    | cont s2 =>
      simp only [trun, hstep] at h
      obtain ⟨pre, hpre⟩ := ih s2 t rest h
      exact ⟨e :: pre, by rw [hpre]; rfl⟩

/-- Soundness of a firing: when the watchdog fires at time `t` (on a
time-ordered trace, from an invariant-satisfying state, with a monotone
packet counter), the timeout was enabled since some `ts`, the counter was
constant over a closed window `[u, t]` of length at least `tsteady`, and
either the initial grace had fully elapsed with no packet counted since
enable, or some packet was counted after enable. -/
theorem trun_fire_sound (opts : TOpts) (pc : Nat → Nat) (hmono : Monotone pc) :
    ∀ (es : List TEv) (t0 : Nat) (s : TState), TimesMono t0 es → TInv pc t0 s →
    ∀ (t : Nat) (rest : List TEv), trun opts pc s es = (some t, rest) →
    ∃ ts u, ts ≤ u ∧ u + opts.tsteady ≤ t ∧
      (∀ v, u ≤ v → v ≤ t → pc v = pc t) ∧
      ((ts + opts.tinit ≤ t ∧ ∀ v, ts ≤ v → v ≤ t → pc v = pc t) ∨ pc ts < pc t) := by
  intro es
  induction es with
  | nil =>
    intro t0 s _ _ t rest h
    simp only [trun] at h
    exact Option.noConfusion (congrArg Prod.fst h)
  | cons e es ih =>
    intro t0 s htm inv t rest h
    cases hstep : tstep opts pc s e with
    | exit =>
      simp only [trun, hstep] at h
      exact Option.noConfusion (congrArg Prod.fst h)
    | cont s2 =>
      simp only [trun, hstep] at h
      exact ih e.time s2 htm.2
        (TInv_cont opts pc t0 s s2 e hmono inv htm.1 hstep) t rest h
    | fire tf =>
      simp only [trun, hstep, Prod.mk.injEq, Option.some.injEq] at h
      obtain ⟨h1, h2⟩ := h
      have he : e = TEv.tick tf := tstep_fire_tick opts pc s e tf hstep
      subst he
      have ht0 : t0 ≤ t := by rw [← h1]; exact htm.1
      have hu : s.lastTime ≤ t := le_trans inv.lastTime_le ht0
      rw [h1] at hstep
      by_cases hN : pc t ≠ s.lastPackets
      · simp only [tstep, if_pos hN] at hstep
        exact TStep.noConfusion hstep
      · have hcur2 : pc t = s.lastPackets := not_not.mp hN
        cases hts : s.tstart with
        | none =>
          simp only [tstep, if_neg hN, hts] at hstep
          exact TStep.noConfusion hstep
        | some ts =>
          by_cases hG : s.lastPackets = s.startPackets ∧ t - ts < opts.tinit
          · simp only [tstep, if_neg hN, hts, if_pos hG] at hstep
            exact TStep.noConfusion hstep
          · by_cases hE : t - s.lastTime < opts.tsteady
            · simp only [tstep, if_neg hN, hts, if_neg hG, if_pos hE] at hstep
              exact TStep.noConfusion hstep
            · have htsl : ts ≤ s.lastTime := inv.tstart_le ts hts
              have hsp : s.startPackets = pc ts := inv.tstart_pc ts hts
              have hpcu : pc s.lastTime = pc t :=
                le_antisymm (hmono hu) (hcur2 ▸ inv.lastPackets_le)
              refine ⟨ts, s.lastTime, htsl, by omega, ?_, ?_⟩
              · intro v hv1 hv2
                exact le_antisymm (hmono hv2) (hpcu ▸ hmono hv1)
              · by_cases hq : s.lastPackets = s.startPackets
                · left
                  have hnotg : ¬(t - ts < opts.tinit) := fun hx => hG ⟨hq, hx⟩
                  have htst : ts ≤ t := le_trans htsl hu
                  refine ⟨by omega, ?_⟩
                  have hpts : pc ts = pc t := by rw [← hsp, ← hq, hcur2]
                  intro v hv1 hv2
                  exact le_antisymm (hmono hv2) (hpts ▸ hmono hv1)
                · right
                  have hne : pc ts ≠ pc t := by
                    rw [← hsp, hcur2]
                    exact fun hx => hq hx.symm
                  exact lt_of_le_of_ne (hmono (le_trans htsl hu)) hne

/-- Completeness of the firing condition, with ticker fairness given as two
explicit ticks: from any enabled state, if the packet counter does not
change between two ticks separated by at least `tsteady`, the second of
which lies beyond the initial grace, the watchdog fires. -/
theorem trun_two_ticks_fire (opts : TOpts) (pc : Nat → Nat) (s : TState)
    (ts t1 t2 : Nat) (hts : s.tstart = some ts) (hlt : s.lastTime ≤ t1)
    (h12 : t1 + opts.tsteady ≤ t2) (hgr : ts + opts.tinit ≤ t2)
    (hpc : pc t1 = pc t2) :
    (trun opts pc s [TEv.tick t1, TEv.tick t2]).1.isSome = true := by
  have fire2 : ∀ s2 : TState, s2.tstart = some ts → pc t2 = s2.lastPackets →
      s2.lastTime ≤ t1 → tstep opts pc s2 (TEv.tick t2) = .fire t2 := by
    intro s2 h1 h2 h3
    have hB : ¬(s2.lastPackets = s2.startPackets ∧ t2 - ts < opts.tinit) :=
      fun hx => absurd hx.2 (by omega)
    have hC : ¬(t2 - s2.lastTime < opts.tsteady) := by omega
    simp only [tstep, h1]
    rw [if_neg (not_not_intro h2), if_neg hB, if_neg hC]
  by_cases hch : pc t1 = s.lastPackets
  · have hpc2 : pc t2 = s.lastPackets := hpc.symm.trans hch
    by_cases hg1 : s.lastPackets = s.startPackets ∧ t1 - ts < opts.tinit
    · have hstep1 : tstep opts pc s (TEv.tick t1) = .cont s := by
        simp only [tstep, hts]
        rw [if_neg (not_not_intro hch), if_pos hg1]
      have hstep2 := fire2 s hts hpc2 hlt
      simp only [trun, hstep1, hstep2]
      rfl
    · by_cases he1 : t1 - s.lastTime < opts.tsteady
      · have hstep1 : tstep opts pc s (TEv.tick t1) = .cont s := by
          simp only [tstep, hts]
          rw [if_neg (not_not_intro hch), if_neg hg1, if_pos he1]
        have hstep2 := fire2 s hts hpc2 hlt
        simp only [trun, hstep1, hstep2]
        rfl
      · have hstep1 : tstep opts pc s (TEv.tick t1) = .fire t1 := by
          simp only [tstep, hts]
          rw [if_neg (not_not_intro hch), if_neg hg1, if_neg he1]
        simp only [trun, hstep1]
        rfl
  · have hstep1 : tstep opts pc s (TEv.tick t1) =
        .cont { s with lastPackets := pc t1, lastTime := t1 } := by
      simp only [tstep]
      rw [if_pos hch]
    have hstep2 := fire2 { s with lastPackets := pc t1, lastTime := t1 }
      hts hpc.symm (le_refl t1)
    simp only [trun, hstep1, hstep2]
    rfl

/-- C4: the media-timeout signal fires at most once and the watchdog exits
after firing (part 1: everything after the firing tick is left unprocessed);
it fires only when the timeout is enabled and the packet counter has been
unchanged for a window of at least `MediaTimeout`, after either the initial
grace `MediaTimeoutInitial` elapsed since enable with no packet counted
since enable, or some packet was counted after enable (part 2, soundness);
and whenever the timeout is enabled and the counter stays unchanged across
two ticks spanning at least `MediaTimeout` beyond the grace, it does fire
(part 3, completeness under ticker fairness). -/
theorem c4_media_timeout (opts : TOpts) (pc : Nat → Nat) :
    (∀ (s : TState) (es : List TEv) (t : Nat) (rest : List TEv),
        trun opts pc s es = (some t, rest) →
        ∃ pre, es = pre ++ TEv.tick t :: rest) ∧
    (∀ (t0 : Nat) (s : TState) (es : List TEv) (t : Nat) (rest : List TEv),
        Monotone pc → TimesMono t0 es → TInv pc t0 s →
        trun opts pc s es = (some t, rest) →
        ∃ ts u, ts ≤ u ∧ u + opts.tsteady ≤ t ∧
          (∀ v, u ≤ v → v ≤ t → pc v = pc t) ∧
          ((ts + opts.tinit ≤ t ∧ ∀ v, ts ≤ v → v ≤ t → pc v = pc t) ∨
            pc ts < pc t)) ∧
    (∀ (s : TState) (ts t1 t2 : Nat),
        s.tstart = some ts → s.lastTime ≤ t1 → t1 + opts.tsteady ≤ t2 →
        ts + opts.tinit ≤ t2 → pc t1 = pc t2 →
        (trun opts pc s [TEv.tick t1, TEv.tick t2]).1.isSome = true) :=
  ⟨fun s es t rest h => trun_fire_exits opts pc es s t rest h,
   fun t0 s es t rest hm htm hinv h =>
     trun_fire_sound opts pc hm es t0 s htm hinv t rest h,
   fun s ts t1 t2 h1 h2 h3 h4 h5 =>
     trun_two_ticks_fire opts pc s ts t1 t2 h1 h2 h3 h4 h5⟩

/-- Concrete watchdog options for the C4 witness: initial grace 30, steady
timeout 15 (the defaults, in seconds). -/
def twOpts : TOpts := ⟨30, 15⟩

/-- Concrete packet counter for the C4 witness: no packet ever arrives. -/
def twPc : Nat → Nat := fun _ => 0

/-- Concrete watchdog state for the C4 witness: enabled at time 5, nothing
observed yet. -/
def twS : TState := ⟨0, 0, 5, some 5⟩

/-- Witness for C4: all three parts instantiated on a concrete silent
stream, enabled at time 5 and ticked at times 20 and 35. -/
theorem c4_media_timeout_witness :
    (∃ pre, ([TEv.tick 20, TEv.tick 35] : List TEv) =
        pre ++ TEv.tick 35 :: ([] : List TEv)) ∧
    (∃ ts u, ts ≤ u ∧ u + twOpts.tsteady ≤ 35 ∧
      (∀ v, u ≤ v → v ≤ 35 → twPc v = twPc 35) ∧
      ((ts + twOpts.tinit ≤ 35 ∧ ∀ v, ts ≤ v → v ≤ 35 → twPc v = twPc 35) ∨
        twPc ts < twPc 35)) ∧
    (trun twOpts twPc twS [TEv.tick 20, TEv.tick 35]).1.isSome = true := by
  have h := c4_media_timeout twOpts twPc
  have hrun : trun twOpts twPc twS [TEv.tick 20, TEv.tick 35] = (some 35, []) := rfl
  have hinv : TInv twPc 5 twS := by
    refine ⟨le_refl 5, le_refl 0, ?_, ?_⟩
    · intro ts hts
      simp only [twS] at hts
      injection hts with hts2
      exact le_of_eq hts2.symm
    · intro ts hts
      rfl
  refine ⟨h.1 twS [TEv.tick 20, TEv.tick 35] 35 [] hrun, ?_, ?_⟩
  · exact h.2.1 5 twS [TEv.tick 20, TEv.tick 35] 35 []
      (fun a b hab => le_refl 0) ⟨by decide, by decide, trivial⟩ hinv hrun
  · exact h.2.2 twS 5 20 35 rfl (by decide) (by decide) (by decide) rfl

end MediaPortGo
